import Mathlib

/-!
# Logger assembly of the Nakama server (`server/logger.go`)

A shallow embedding of `SetupLogging`, `NewJSONFileLogger`, `NewMultiLogger`
and `NewJSONLogger`, together with the part of the `zap` / `zapcore` / `os`
interface these four functions call.

* Go pointers to loggers become values, the nil logger becomes `none`.
* The process state touched by the code (open attempts, records written to
  the sinks, the target of the redirected standard log) is an explicit
  `World`; a call that may end the process returns an `Outcome`.
* The file system is a function telling, for a path, whether `os.OpenFile`
  fails and with which error.
-/

namespace Nakama

/-! ## zapcore levels -/

/-- The type `zapcore.Level` is an `int8`; levels are compared as integers. -/
abbrev Level := Int

/-- The constant `zapcore.DebugLevel`. -/
abbrev DebugLevel : Level := -1
/-- The constant `zapcore.InfoLevel`, the zero value. -/
abbrev InfoLevel : Level := 0
/-- The constant `zapcore.WarnLevel`. -/
abbrev WarnLevel : Level := 1
/-- The constant `zapcore.ErrorLevel`. -/
abbrev ErrorLevel : Level := 2
/-- The constant `zapcore.DPanicLevel`. -/
abbrev DPanicLevel : Level := 3
/-- The constant `zapcore.PanicLevel`. -/
abbrev PanicLevel : Level := 4
/-- The constant `zapcore.FatalLevel`. -/
abbrev FatalLevel : Level := 5

/-! ## Destinations, fields, encoder configuration -/

/-- An `*os.File` the code can hold: `os.Stdout`, or the handle returned by a
successful `os.OpenFile` on a path. -/
inductive File where
  | Stdout
  | Opened (name : String)
  deriving DecidableEq, Repr

/-- A `zap.Field` as the JSON encoder meets it in `Field.AddTo`. Either the
field adds members, each given by its key and a rendering of its value, to
the object that is open: none for a skipped field (`zap.Skip()`,
`zap.Error(nil)`), one for most fields, several for instance for an error
that also has a verbose form. Or the field is a `zap.Namespace`: it adds its
key and opens under it a nested object, which takes all later fields. -/
inductive Field where
  | Members (kvs : List (String × String))
  | Namespace (key : String)
  deriving DecidableEq, Repr

/-- The field `zap.Skip()`: it adds nothing. -/
def Skip : Field := Field.Members []

/-- The field `zap.Error(err)` for the non-nil error of a failed
`os.OpenFile`, a `*PathError`: it is neither an error group nor a
`fmt.Formatter`, so the field adds its message as one member, under the key
`error`. -/
def zapError (err : String) : Field := Field.Members [("error", err)]

/-- The keys of the members that `addFields` writes into the top-level object:
those of the fields up to the first namespace, and the key of that namespace;
what follows a namespace is nested below it. -/
def addFields : List Field → List String
  | [] => []
  | Field.Members kvs :: rest => kvs.map Prod.fst ++ addFields rest
  | Field.Namespace key :: _ => [key]

/-- Level encoders of `zapcore`. -/
inductive LevelEncoder where
  | LowercaseLevelEncoder
  | CapitalLevelEncoder
  deriving DecidableEq, Repr

/-- Time encoders of `zapcore`. -/
inductive TimeEncoder where
  | ISO8601TimeEncoder
  | EpochTimeEncoder
  deriving DecidableEq, Repr

/-- Duration encoders of `zapcore`. -/
inductive DurationEncoder where
  | StringDurationEncoder
  | SecondsDurationEncoder
  deriving DecidableEq, Repr

/-- Caller encoders of `zapcore`. -/
inductive CallerEncoder where
  | ShortCallerEncoder
  | FullCallerEncoder
  deriving DecidableEq, Repr

/-- The fields of `zapcore.EncoderConfig` that `NewJSONLogger` sets. -/
structure EncoderConfig where
  TimeKey : String
  LevelKey : String
  NameKey : String
  CallerKey : String
  MessageKey : String
  StacktraceKey : String
  EncodeLevel : LevelEncoder
  EncodeTime : TimeEncoder
  EncodeDuration : DurationEncoder
  EncodeCaller : CallerEncoder
  deriving DecidableEq, Repr

/-- A `zapcore.Entry` as the encoder sees it. The instant of the entry is not
represented; `CallerDefined` is `Entry.Caller.Defined` and `Stack` tells
whether `Entry.Stack` holds a captured (non-empty) stack trace. -/
structure Entry where
  Level : Level
  LoggerName : String
  Message : String
  CallerDefined : Bool
  Stack : Bool
  deriving DecidableEq, Repr

/-- The keys, in the order written, of the top-level members of the JSON
object that the zapcore JSON encoder (`EncodeEntry`) produces for an entry and
the fields of the call: level, time, logger name (when non-empty), caller
(when defined), message, the top-level members of the fields, and, after the
open namespaces are closed, the stack trace (when captured); a key of the
entry is emitted only when it is configured non-empty. A key written twice
is one key of the object parsed back, so the parsed object has a key exactly
when it occurs in this list. -/
def EncoderConfig.keys (cfg : EncoderConfig) (ent : Entry) (fields : List Field) : List String :=
  (if cfg.LevelKey ≠ "" then [cfg.LevelKey] else []) ++
  (if cfg.TimeKey ≠ "" then [cfg.TimeKey] else []) ++
  (if ent.LoggerName ≠ "" ∧ cfg.NameKey ≠ "" then [cfg.NameKey] else []) ++
  (if ent.CallerDefined = true ∧ cfg.CallerKey ≠ "" then [cfg.CallerKey] else []) ++
  (if cfg.MessageKey ≠ "" then [cfg.MessageKey] else []) ++
  addFields fields ++
  (if ent.Stack = true ∧ cfg.StacktraceKey ≠ "" then [cfg.StacktraceKey] else [])

/-- One record written to a destination: what `ioCore.Write` hands to the
encoder, and the sink that receives the encoded line. -/
structure Record where
  dest : File
  enc : EncoderConfig
  ent : Entry
  fields : List Field
  deriving DecidableEq, Repr

/-- The keys of the top-level members written for a record. -/
def Record.keys (r : Record) : List String := r.enc.keys r.ent r.fields

/-! ## Cores -/

/-- A `zapcore.Core`: the no-op core, the core of `zapcore.NewCore` (encoder,
sink, level enabler), or the `multiCore` of `zapcore.NewTee`. -/
inductive Core where
  | nopCore
  | ioCore (enc : EncoderConfig) (out : File) (level : Level)
  | multiCore (cores : List Core)
  deriving Repr

/-- The function `zapcore.NewCore`. -/
def NewCore (enc : EncoderConfig) (ws : File) (enab : Level) : Core := Core.ioCore enc ws enab

/-- The function `zapcore.Lock`: it serialises writes and leaves the
destination unchanged. -/
def Lock (ws : File) : File := ws

/-- The function `zapcore.NewTee`: no core gives the no-op core, one core is
returned as it is, several become a `multiCore`. -/
def NewTee (cores : List Core) : Core :=
  match cores with
  | [] => Core.nopCore
  | [c] => c
  | cs => Core.multiCore cs

mutual
/-- The method `Core.Enabled`: an io core accepts the levels at or above its
own, a `multiCore` accepts a level when one of its cores does. -/
def Core.Enabled : Core → Level → Bool
  | Core.nopCore, _ => false
  | Core.ioCore _ _ level, lvl => decide (level ≤ lvl)
  | Core.multiCore cs, lvl => Core.EnabledAny cs lvl
/-- The loop of `multiCore.Enabled`. -/
def Core.EnabledAny : List Core → Level → Bool
  | [], _ => false
  | c :: cs, lvl => Core.Enabled c lvl || Core.EnabledAny cs lvl
end

mutual
/-- The method `Core.Check`: the io cores, in order, that take the entry,
each given by its encoder and sink. -/
def Core.Check : Core → Entry → List (EncoderConfig × File)
  | Core.nopCore, _ => []
  | Core.ioCore enc out level, ent => if level ≤ ent.Level then [(enc, out)] else []
  | Core.multiCore cs, ent => Core.CheckAll cs ent
/-- The loop of `multiCore.Check`. -/
def Core.CheckAll : List Core → Entry → List (EncoderConfig × File)
  | [], _ => []
  | c :: cs, ent => Core.Check c ent ++ Core.CheckAll cs ent
end

/-! ## Loggers -/

/-- The state of a `zap.Logger` that the code and its callers can observe:
the core, the name, whether call sites are annotated, and the level from
which a stack trace is captured. -/
structure Logger where
  core : Core
  name : String
  addCaller : Bool
  addStack : Level
  deriving Repr

/-- The options of `zap` that concern the record contents. -/
inductive ZapOption where
  | AddCaller
  | AddStacktrace (lvl : Level)
  deriving Repr

/-- Applying an option to a logger (`Option.apply`). -/
def ZapOption.apply : ZapOption → Logger → Logger
  | ZapOption.AddCaller, log => { log with addCaller := true }
  | ZapOption.AddStacktrace lvl, log => { log with addStack := lvl }

/-- The function `zap.New`: a logger without name and without caller
annotation, capturing no stack trace (`FatalLevel + 1`), then the options
applied in order. -/
def New (core : Core) (options : List ZapOption) : Logger :=
  options.foldl (fun log opt => opt.apply log)
    { core := core, name := "", addCaller := false, addStack := FatalLevel + 1 }

/-- The method `Logger.Core`. -/
def Logger.Core (log : Logger) : Core := log.core

/-- The method `Logger.Named`: the empty name changes nothing, otherwise the
name is set, or appended after a period to the present one. -/
def Logger.Named (log : Logger) (s : String) : Logger :=
  if s = "" then log
  else if log.name = "" then { log with name := s }
  else { log with name := log.name ++ "." ++ s }

/-- The records one log call at level `lvl` writes (`Logger.check` followed by
`CheckedEntry.Write`): nothing when the level is below `DPanicLevel` and the
core rejects it; otherwise the entry is offered to the core, annotated with
the caller when `addCaller` is set and with a stack trace when `addStack`
accepts the level, and every io core that took it writes one record. -/
def Logger.records (log : Logger) (lvl : Level) (msg : String) (fields : List Field) : List Record :=
  if lvl < DPanicLevel ∧ log.core.Enabled lvl = false then []
  else
    let ent : Entry :=
      { Level := lvl, LoggerName := log.name, Message := msg, CallerDefined := false, Stack := false }
    (log.core.Check ent).map fun p =>
      { dest := p.2, enc := p.1,
        ent := { ent with CallerDefined := log.addCaller, Stack := decide (log.addStack ≤ lvl) },
        fields := fields }

/-! ## Process state -/

/-- The state the code acts on: the paths `os.OpenFile` was called on, the
records written to the sinks so far (oldest first), and the logger the
standard log is redirected to, if any. -/
structure World where
  opens : List String
  out : List Record
  stdLog : Option Logger
  deriving Repr

/-- The result of a call that may end the process: it returns a value, or the
process exits with a status. -/
inductive Outcome (α : Type) where
  | ret (a : α) (w : World)
  | exit (code : Nat) (w : World)
  deriving Repr

/-- The file system: for a path, `some err` when `os.OpenFile` with
`O_APPEND|O_CREATE|O_WRONLY` fails with error `err`, `none` when it succeeds. -/
abbrev FileSystem := String → Option String

/-- The call `os.OpenFile(fpath, os.O_APPEND|os.O_CREATE|os.O_WRONLY, 0666)`. -/
def OpenFile (fs : FileSystem) (fpath : String) (w : World) : Except String File × World :=
  let w1 := { w with opens := w.opens ++ [fpath] }
  match fs fpath with
  | some err => (Except.error err, w1)
  | none => (Except.ok (File.Opened fpath), w1)

/-- The method `Logger.Fatal`: the records of a call at `FatalLevel` are
written, then the process exits with status 1. -/
def Logger.Fatal (log : Logger) (msg : String) (fields : List Field) (w : World) : Outcome Unit :=
  Outcome.exit 1 { w with out := w.out ++ log.records FatalLevel msg fields }

/-- The function `zap.RedirectStdLog`. -/
def RedirectStdLog (l : Logger) (w : World) : World := { w with stdLog := some l }

/-! ## Configuration -/

/-- Modelled from the spec: the logger section of the configuration, declared
outside this file; three fields, the minimum severity level (a free-form
string), the file path (empty means no file sink) and the stdout-mirror
flag. -/
structure LoggerConfig where
  Level : String
  File : String
  Stdout : Bool
  deriving DecidableEq, Repr

/-- Modelled from the spec: the `Config` interface, declared outside this
file, as far as `SetupLogging` uses it. -/
structure Config where
  logger : LoggerConfig
  deriving DecidableEq, Repr

/-- The accessor `Config.GetLogger`. -/
def Config.GetLogger (config : Config) : LoggerConfig := config.logger

/-! ## The four functions of `server/logger.go` -/

/-- The encoder configuration literal of `NewJSONLogger`. -/
def NewJSONLogger.jsonEncoder : EncoderConfig :=
  { TimeKey := "ts",
    LevelKey := "level",
    NameKey := "logger",
    CallerKey := "caller",
    MessageKey := "msg",
    StacktraceKey := "stacktrace",
    EncodeLevel := LevelEncoder.LowercaseLevelEncoder,
    EncodeTime := TimeEncoder.ISO8601TimeEncoder,
    EncodeDuration := DurationEncoder.StringDurationEncoder,
    EncodeCaller := CallerEncoder.ShortCallerEncoder }

/-- The `switch` of `NewJSONLogger` on the level string: the value of
`zapLevel` after it. -/
def NewJSONLogger.zapLevel (level : String) : Level :=
  if level = "debug" ∨ level = "DEBUG" then DebugLevel
  else if level = "info" ∨ level = "INFO" then InfoLevel
  else if level = "warn" ∨ level = "WARN" then WarnLevel
  else if level = "error" ∨ level = "ERROR" then ErrorLevel
  else InfoLevel

/-- The function `NewJSONLogger`. -/
def NewJSONLogger (output : File) (level : String) : Logger :=
  let core := NewCore NewJSONLogger.jsonEncoder (Lock output) (NewJSONLogger.zapLevel level)
  let options := [ZapOption.AddStacktrace ErrorLevel]
  New core options

/-- The function `NewMultiLogger`. -/
def NewMultiLogger (loggers : List Logger) : Logger :=
  let cores := loggers.foldl (fun cores logger => cores ++ [logger.Core]) []
  let teeCore := NewTee cores
  let options := [ZapOption.AddStacktrace ErrorLevel]
  New teeCore options

/-- The function `NewJSONFileLogger`; `len(fpath)` is the length in bytes. -/
def NewJSONFileLogger (fs : FileSystem) (consoleLogger : Logger) (fpath : String) (level : String)
    (w : World) : Outcome (Option Logger) :=
  if fpath.utf8ByteSize = 0 then Outcome.ret none w
  else
    match OpenFile fs fpath w with
    | (Except.error err, w1) =>
      match consoleLogger.Fatal "Could not create log file" [zapError err] w1 with
      | Outcome.exit code w2 => Outcome.exit code w2
      | Outcome.ret _ w2 => Outcome.ret none w2
    | (Except.ok output, w1) => Outcome.ret (some (NewJSONLogger output level)) w1

/-- The function `SetupLogging`. -/
def SetupLogging (fs : FileSystem) (config : Config) (w : World) : Outcome (Logger × Logger) :=
  let consoleLogger := NewJSONLogger File.Stdout config.GetLogger.Level
  match NewJSONFileLogger fs consoleLogger config.GetLogger.File config.GetLogger.Level w with
  | Outcome.exit code w1 => Outcome.exit code w1
  | Outcome.ret (some fileLogger) w1 =>
    let multiLogger := NewMultiLogger [consoleLogger, fileLogger]
    if config.GetLogger.Stdout = true then
      Outcome.ret (multiLogger, multiLogger) (RedirectStdLog multiLogger w1)
    else
      Outcome.ret (fileLogger, multiLogger) (RedirectStdLog fileLogger w1)
  | Outcome.ret none w1 =>
    Outcome.ret (consoleLogger, consoleLogger) (RedirectStdLog consoleLogger w1)

/-! ## Vocabulary of the specification -/

/-- The lower-cased form of a level string (letters `A` to `Z` mapped to `a`
to `z`), as the case-insensitive reading of the level names uses it. -/
def lowerCased (s : String) : String := ⟨s.data.map Char.toLower⟩

/-- The four level names of the specification with their all-upper-case
spelling and the severity each stands for. -/
def levelSpellings : List (String × String × Level) :=
  [("debug", "DEBUG", DebugLevel), ("info", "INFO", InfoLevel),
   ("warn", "WARN", WarnLevel), ("error", "ERROR", ErrorLevel)]

/-! ## Level resolution -/

theorem NewJSONLogger_core (output : File) (level : String) :
    (NewJSONLogger output level).core =
      Core.ioCore NewJSONLogger.jsonEncoder output (NewJSONLogger.zapLevel level) := rfl

theorem NewJSONLogger_eq (output : File) (level : String) :
    NewJSONLogger output level =
      { core := Core.ioCore NewJSONLogger.jsonEncoder output (NewJSONLogger.zapLevel level),
        name := "", addCaller := false, addStack := ErrorLevel } := rfl

/-- A string equal to a spelling has that spelling's lower-cased form. -/
theorem ne_of_lowerCased_ne {s n : String} (hlow : lowerCased s = n) (t : String)
    (ht : lowerCased t ≠ n) : s ≠ t := by
  intro h
  subst h
  exact ht hlow

/-- C1, as stated, fails: the lower-cased form of the level string `Debug` is
`debug`, one of the four names, yet `NewJSONLogger` resolves `Debug` to the
info threshold and not to the debug threshold. -/
theorem C1_counterexample :
    ("debug", "DEBUG", DebugLevel) ∈ levelSpellings ∧ lowerCased "Debug" = "debug" ∧
    (NewJSONLogger File.Stdout "Debug").core =
      Core.ioCore NewJSONLogger.jsonEncoder File.Stdout InfoLevel ∧
    (NewJSONLogger File.Stdout "Debug").core ≠
      Core.ioCore NewJSONLogger.jsonEncoder File.Stdout DebugLevel := by
  refine ⟨by decide, by decide, rfl, ?_⟩
  intro h
  have h2 : NewJSONLogger.zapLevel "Debug" = DebugLevel := by
    rw [NewJSONLogger_core] at h
    injection h
  revert h2
  decide

/-- C1, amended: for every level string whose lower-cased form is one of the
names debug, info, warn, error, `NewJSONLogger` resolves the threshold to the
corresponding severity when the string is exactly the lower-case name or its
all-upper-case spelling, and to info for every other casing. -/
theorem C1_resolution_by_exact_spelling (output : File) (s n u : String) (l : Level)
    (hmem : (n, u, l) ∈ levelSpellings) (hlow : lowerCased s = n) :
    (NewJSONLogger output s).core =
      Core.ioCore NewJSONLogger.jsonEncoder output (if s = n ∨ s = u then l else InfoLevel) := by
  rw [NewJSONLogger_core]
  congr 1
  simp only [levelSpellings, List.mem_cons, List.mem_singleton, Prod.mk.injEq,
    List.not_mem_nil, or_false] at hmem
  rcases hmem with ⟨rfl, rfl, rfl⟩ | ⟨rfl, rfl, rfl⟩ | ⟨rfl, rfl, rfl⟩ | ⟨rfl, rfl, rfl⟩
  · have e1 := ne_of_lowerCased_ne hlow "info" (by decide)
    have e2 := ne_of_lowerCased_ne hlow "INFO" (by decide)
    have e3 := ne_of_lowerCased_ne hlow "warn" (by decide)
    have e4 := ne_of_lowerCased_ne hlow "WARN" (by decide)
    have e5 := ne_of_lowerCased_ne hlow "error" (by decide)
    have e6 := ne_of_lowerCased_ne hlow "ERROR" (by decide)
    simp only [NewJSONLogger.zapLevel, e1, e2, e3, e4, e5, e6, or_self, if_false]
  · have e1 := ne_of_lowerCased_ne hlow "debug" (by decide)
    have e2 := ne_of_lowerCased_ne hlow "DEBUG" (by decide)
    have e3 := ne_of_lowerCased_ne hlow "warn" (by decide)
    have e4 := ne_of_lowerCased_ne hlow "WARN" (by decide)
    have e5 := ne_of_lowerCased_ne hlow "error" (by decide)
    have e6 := ne_of_lowerCased_ne hlow "ERROR" (by decide)
    simp only [NewJSONLogger.zapLevel, e1, e2, e3, e4, e5, e6, or_self, if_false, ite_self]
  · have e1 := ne_of_lowerCased_ne hlow "debug" (by decide)
    have e2 := ne_of_lowerCased_ne hlow "DEBUG" (by decide)
    have e3 := ne_of_lowerCased_ne hlow "info" (by decide)
    have e4 := ne_of_lowerCased_ne hlow "INFO" (by decide)
    have e5 := ne_of_lowerCased_ne hlow "error" (by decide)
    have e6 := ne_of_lowerCased_ne hlow "ERROR" (by decide)
    simp only [NewJSONLogger.zapLevel, e1, e2, e3, e4, e5, e6, or_self, if_false]
  · have e1 := ne_of_lowerCased_ne hlow "debug" (by decide)
    have e2 := ne_of_lowerCased_ne hlow "DEBUG" (by decide)
    have e3 := ne_of_lowerCased_ne hlow "info" (by decide)
    have e4 := ne_of_lowerCased_ne hlow "INFO" (by decide)
    have e5 := ne_of_lowerCased_ne hlow "warn" (by decide)
    have e6 := ne_of_lowerCased_ne hlow "WARN" (by decide)
    simp only [NewJSONLogger.zapLevel, e1, e2, e3, e4, e5, e6, or_self, if_false]

/-- Witness of C1 amended: the mixed casing `wArN` lower-cases to `warn` and
is neither `warn` nor `WARN`, so it resolves to info. -/
theorem C1_resolution_by_exact_spelling_witness :
    ("warn", "WARN", WarnLevel) ∈ levelSpellings ∧ lowerCased "wArN" = "warn" ∧
    (NewJSONLogger File.Stdout "wArN").core =
      Core.ioCore NewJSONLogger.jsonEncoder File.Stdout
        (if "wArN" = "warn" ∨ "wArN" = "WARN" then WarnLevel else InfoLevel) :=
  ⟨by decide, by decide,
   C1_resolution_by_exact_spelling File.Stdout "wArN" "warn" "WARN" WarnLevel
     (by decide) (by decide)⟩

/-- C2: for every level string, `NewJSONLogger` builds an io core over the
given output whose threshold is debug exactly for `debug` and `DEBUG`, warn
exactly for `warn` and `WARN`, error exactly for `error` and `ERROR`, and
info for every other string, among them `info`, `INFO`, the empty string,
`trace` and `Info ` with a trailing blank. The resolution is a total function
into the levels: no string makes it fail. -/
theorem C2_level_resolution (output : File) (s : String) :
    (NewJSONLogger output s).core =
      Core.ioCore NewJSONLogger.jsonEncoder output (NewJSONLogger.zapLevel s) ∧
    (NewJSONLogger.zapLevel s = DebugLevel ↔ s = "debug" ∨ s = "DEBUG") ∧
    (NewJSONLogger.zapLevel s = WarnLevel ↔ s = "warn" ∨ s = "WARN") ∧
    (NewJSONLogger.zapLevel s = ErrorLevel ↔ s = "error" ∨ s = "ERROR") ∧
    (NewJSONLogger.zapLevel s = InfoLevel ↔
      ¬ (s = "debug" ∨ s = "DEBUG" ∨ s = "warn" ∨ s = "WARN" ∨ s = "error" ∨ s = "ERROR")) ∧
    NewJSONLogger.zapLevel "info" = InfoLevel ∧ NewJSONLogger.zapLevel "INFO" = InfoLevel ∧
    NewJSONLogger.zapLevel "" = InfoLevel ∧ NewJSONLogger.zapLevel "trace" = InfoLevel ∧
    NewJSONLogger.zapLevel "Info " = InfoLevel := by
  refine ⟨rfl, ?_, ?_, ?_, ?_, by decide, by decide, by decide, by decide, by decide⟩
  all_goals
    unfold NewJSONLogger.zapLevel
    by_cases h1 : s = "debug"
    · subst h1; decide
    by_cases h2 : s = "DEBUG"
    · subst h2; decide
    by_cases h3 : s = "info"
    · subst h3; decide
    by_cases h4 : s = "INFO"
    · subst h4; decide
    by_cases h5 : s = "warn"
    · subst h5; decide
    by_cases h6 : s = "WARN"
    · subst h6; decide
    by_cases h7 : s = "error"
    · subst h7; decide
    by_cases h8 : s = "ERROR"
    · subst h8; decide
    simp [h1, h2, h3, h4, h5, h6, h7, h8]

/-! ## Auxiliary facts on the model -/

theorem utf8ByteSize_eq_zero_iff (s : String) : s.utf8ByteSize = 0 ↔ s = "" := by
  cases s with
  | mk l =>
    rw [String.utf8ByteSize_mk, String.utf8Len_eq_zero]
    constructor
    · intro h; subst h; rfl
    · intro h; exact congrArg String.data h

theorem zapLevel_le_ErrorLevel (s : String) : NewJSONLogger.zapLevel s ≤ ErrorLevel := by
  unfold NewJSONLogger.zapLevel
  split_ifs <;> decide

theorem NewJSONLogger_records (output : File) (s : String) (lvl : Level) (msg : String)
    (fields : List Field) :
    (NewJSONLogger output s).records lvl msg fields =
      if NewJSONLogger.zapLevel s ≤ lvl then
        [{ dest := output, enc := NewJSONLogger.jsonEncoder,
           ent := { Level := lvl, LoggerName := "", Message := msg, CallerDefined := false,
                    Stack := decide (ErrorLevel ≤ lvl) },
           fields := fields }]
      else [] := by
  rw [NewJSONLogger_eq]
  unfold Logger.records
  by_cases h : NewJSONLogger.zapLevel s ≤ lvl
  · simp [Core.Enabled, Core.Check, h]
  · simp [Core.Enabled, Core.Check, h]

theorem NewMultiLogger_pair (a b : Logger) :
    NewMultiLogger [a, b] =
      { core := Core.multiCore [a.core, b.core], name := "", addCaller := false,
        addStack := ErrorLevel } := rfl

theorem foldl_cores (ls : List Logger) (acc : List Core) :
    ls.foldl (fun cores logger => cores ++ [logger.Core]) acc = acc ++ ls.map Logger.Core := by
  induction ls generalizing acc with
  | nil => simp
  | cons x xs ih => simp [ih]

theorem NewMultiLogger_eq (ls : List Logger) :
    NewMultiLogger ls =
      { core := NewTee (ls.map Logger.Core), name := "", addCaller := false,
        addStack := ErrorLevel } := by
  unfold NewMultiLogger
  simp only [foldl_cores, List.nil_append]
  rfl

/-- The destinations reached by one call on the fan-out of two loggers built by
`NewJSONLogger`: each of the two sinks whose threshold accepts the level, the
first logger's sink first. -/
theorem fanout_pair_dests (o1 o2 : File) (s1 s2 : String) (lvl : Level) (msg : String)
    (fields : List Field) :
    ((NewMultiLogger [NewJSONLogger o1 s1, NewJSONLogger o2 s2]).records lvl msg fields).map
        Record.dest =
      (if NewJSONLogger.zapLevel s1 ≤ lvl then [o1] else []) ++
      (if NewJSONLogger.zapLevel s2 ≤ lvl then [o2] else []) := by
  rw [NewMultiLogger_pair, NewJSONLogger_core, NewJSONLogger_core]
  unfold Logger.records
  by_cases h1 : NewJSONLogger.zapLevel s1 ≤ lvl <;> by_cases h2 : NewJSONLogger.zapLevel s2 ≤ lvl <;>
    simp [Core.Enabled, Core.EnabledAny, Core.Check, Core.CheckAll, h1, h2]

theorem NewJSONFileLogger_empty (fs : FileSystem) (c : Logger) (level : String) (w : World) :
    NewJSONFileLogger fs c "" level w = Outcome.ret none w := rfl

theorem NewJSONFileLogger_opened (fs : FileSystem) (c : Logger) (p level : String) (w : World)
    (hp : p ≠ "") (hopen : fs p = none) :
    NewJSONFileLogger fs c p level w =
      Outcome.ret (some (NewJSONLogger (File.Opened p) level))
        { opens := w.opens ++ [p], out := w.out, stdLog := w.stdLog } := by
  have h0 : ¬ p.utf8ByteSize = 0 := fun h => hp ((utf8ByteSize_eq_zero_iff p).mp h)
  simp [NewJSONFileLogger, OpenFile, h0, hopen]

theorem NewJSONFileLogger_failed (fs : FileSystem) (c : Logger) (p level err : String) (w : World)
    (hp : p ≠ "") (hopen : fs p = some err) :
    NewJSONFileLogger fs c p level w =
      Outcome.exit 1
        { opens := w.opens ++ [p],
          out := w.out ++ c.records FatalLevel "Could not create log file" [zapError err],
          stdLog := w.stdLog } := by
  have h0 : ¬ p.utf8ByteSize = 0 := fun h => hp ((utf8ByteSize_eq_zero_iff p).mp h)
  simp [NewJSONFileLogger, OpenFile, Logger.Fatal, h0, hopen]

mutual
theorem Core.Check_eq_nil_iff : ∀ (c : Core) (ent : Entry),
    Core.Check c ent = [] ↔ Core.Enabled c ent.Level = false
  | Core.nopCore, ent => by simp [Core.Check, Core.Enabled]
  | Core.ioCore enc out level, ent => by
    by_cases h : level ≤ ent.Level <;> simp [Core.Check, Core.Enabled, h]
  | Core.multiCore cs, ent => by
    simp only [Core.Check, Core.Enabled]
    exact Core.CheckAll_eq_nil_iff cs ent
theorem Core.CheckAll_eq_nil_iff : ∀ (cs : List Core) (ent : Entry),
    Core.CheckAll cs ent = [] ↔ Core.EnabledAny cs ent.Level = false
  | [], ent => by simp [Core.CheckAll, Core.EnabledAny]
  | c :: cs, ent => by
    simp only [Core.CheckAll, Core.EnabledAny, List.append_eq_nil, Bool.or_eq_false_iff]
    rw [Core.Check_eq_nil_iff c ent, Core.CheckAll_eq_nil_iff cs ent]
end

theorem Check_NewTee (cs : List Core) (ent : Entry) :
    Core.Check (NewTee cs) ent = Core.CheckAll cs ent := by
  match cs with
  | [] => simp [NewTee, Core.Check, Core.CheckAll]
  | [c] => simp [NewTee, Core.CheckAll]
  | c :: d :: cs => simp [NewTee, Core.Check]

theorem Enabled_NewTee (cs : List Core) (lvl : Level) :
    Core.Enabled (NewTee cs) lvl = Core.EnabledAny cs lvl := by
  match cs with
  | [] => simp [NewTee, Core.Enabled, Core.EnabledAny]
  | [c] => simp [NewTee, Core.EnabledAny]
  | c :: d :: cs => simp [NewTee, Core.Enabled]

theorem CheckAll_eq_flatMap (cs : List Core) (ent : Entry) :
    Core.CheckAll cs ent = cs.flatMap (fun c => Core.Check c ent) := by
  induction cs with
  | nil => simp [Core.CheckAll]
  | cons c cs ih => simp [Core.CheckAll, ih]

theorem EnabledAny_eq_any (cs : List Core) (lvl : Level) :
    Core.EnabledAny cs lvl = cs.any (fun c => Core.Enabled c lvl) := by
  induction cs with
  | nil => simp [Core.EnabledAny]
  | cons c cs ih => simp [Core.EnabledAny, ih]

/-- The destinations one call reaches are those of the io cores that take an
entry of the level, in order. -/
theorem records_dest (log : Logger) (lvl : Level) (msg : String) (fields : List Field) :
    (log.records lvl msg fields).map Record.dest =
      (Core.Check log.core
        { Level := lvl, LoggerName := log.name, Message := msg, CallerDefined := false,
          Stack := false }).map Prod.snd := by
  unfold Logger.records
  split_ifs with h
  · have := (Core.Check_eq_nil_iff log.core
        { Level := lvl, LoggerName := log.name, Message := msg, CallerDefined := false,
          Stack := false }).mpr h.2
    rw [this]; rfl
  · simp [Function.comp_def]


mutual
theorem Core.Check_congr : ∀ (c : Core) (e1 e2 : Entry), e1.Level = e2.Level →
    Core.Check c e1 = Core.Check c e2
  | Core.nopCore, _, _, _ => by simp [Core.Check]
  | Core.ioCore enc out level, e1, e2, h => by simp [Core.Check, h]
  | Core.multiCore cs, e1, e2, h => by
    simp only [Core.Check]
    exact Core.CheckAll_congr cs e1 e2 h
theorem Core.CheckAll_congr : ∀ (cs : List Core) (e1 e2 : Entry), e1.Level = e2.Level →
    Core.CheckAll cs e1 = Core.CheckAll cs e2
  | [], _, _, _ => by simp [Core.CheckAll]
  | c :: cs, e1, e2, h => by
    simp only [Core.CheckAll]
    rw [Core.Check_congr c e1 e2 h, Core.CheckAll_congr cs e1 e2 h]
end

theorem records_eq_nil_iff (log : Logger) (lvl : Level) (msg : String) (fields : List Field) :
    log.records lvl msg fields = [] ↔ log.core.Enabled lvl = false := by
  rw [← List.map_eq_nil_iff (f := Record.dest), records_dest, List.map_eq_nil_iff]
  exact Core.Check_eq_nil_iff log.core _

theorem records_ent (log : Logger) (lvl : Level) (msg : String) (fields : List Field)
    (r : Record) (hr : r ∈ log.records lvl msg fields) :
    r.ent.Level = lvl ∧ r.ent.LoggerName = log.name ∧ r.ent.CallerDefined = log.addCaller ∧
    r.ent.Stack = decide (log.addStack ≤ lvl) ∧ r.fields = fields := by
  unfold Logger.records at hr
  split_ifs at hr with h
  · simp at hr
  · simp only [List.mem_map] at hr
    obtain ⟨q, _, rfl⟩ := hr
    exact ⟨rfl, rfl, rfl, rfl, rfl⟩

theorem NewJSONFileLogger_some (fs : FileSystem) (c : Logger) (p level : String) (w w1 : World)
    (f : Logger) (h : NewJSONFileLogger fs c p level w = Outcome.ret (some f) w1) :
    f = NewJSONLogger (File.Opened p) level := by
  unfold NewJSONFileLogger OpenFile Logger.Fatal at h
  split_ifs at h
  · simp at h
  · cases hfs : fs p with
    | none => rw [hfs] at h; simp at h; exact h.1.symm
    | some err => rw [hfs] at h; simp at h

theorem Named_NewJSONLogger (output : File) (s n : String) :
    (NewJSONLogger output s).Named n =
      { core := Core.ioCore NewJSONLogger.jsonEncoder output (NewJSONLogger.zapLevel s),
        name := n, addCaller := false, addStack := ErrorLevel } := by
  rw [NewJSONLogger_eq]
  unfold Logger.Named
  by_cases h : n = ""
  · subst h; rfl
  · simp [h]

theorem Named_addStack (log : Logger) (n : String) : (log.Named n).addStack = log.addStack := by
  unfold Logger.Named
  split_ifs <;> rfl

/-- The keys of a record written with the encoder of `NewJSONLogger` by a
logger that captures stack traces from error, the key caller left aside. -/
theorem keys_of_record (log : Logger) (lvl : Level) (msg : String) (fields : List Field)
    (r : Record) (k : String) (hstack : log.addStack = ErrorLevel)
    (hr : r ∈ log.records lvl msg fields) (henc : r.enc = NewJSONLogger.jsonEncoder)
    (hk : k ≠ "caller") :
    k ∈ r.keys ↔
      k = "level" ∨ k = "ts" ∨ k = "msg" ∨ (k = "logger" ∧ log.name ≠ "") ∨
      k ∈ addFields fields ∨ (k = "stacktrace" ∧ ErrorLevel ≤ lvl) := by
  obtain ⟨hl, hn, _, hs, hf⟩ := records_ent log lvl msg fields r hr
  rw [hstack] at hs
  unfold Record.keys EncoderConfig.keys
  rw [henc, hn, hs, hf]
  by_cases hname : log.name = "" <;> by_cases he : ErrorLevel ≤ lvl <;>
    by_cases hc : r.ent.CallerDefined = true <;>
    simp [NewJSONLogger.jsonEncoder, hname, he, hc, hk] <;> tauto

/-! ## Assembly -/

/-- C3: with a non-empty file path that opens and the stdout-mirror flag
false, `SetupLogging` makes one open attempt, writes nothing, redirects the
standard log to the file logger and returns the file logger as active and the
fan-out of console and file logger as general logger; a call on the active
logger reaches the file destination only, a call on the general logger
reaches the console and the file destination, in that order, whenever the
configured threshold accepts the level. -/
theorem C3_file_without_mirror (fs : FileSystem) (level p : String) (w : World)
    (hp : p ≠ "") (hopen : fs p = none) :
    SetupLogging fs ⟨⟨level, p, false⟩⟩ w =
      Outcome.ret
        (NewJSONLogger (File.Opened p) level,
         NewMultiLogger [NewJSONLogger File.Stdout level, NewJSONLogger (File.Opened p) level])
        { opens := w.opens ++ [p], out := w.out,
          stdLog := some (NewJSONLogger (File.Opened p) level) } ∧
    ∀ (lvl : Level) (msg : String) (fields : List Field),
      ((NewJSONLogger (File.Opened p) level).records lvl msg fields).map Record.dest =
        (if NewJSONLogger.zapLevel level ≤ lvl then [File.Opened p] else []) ∧
      ((NewMultiLogger [NewJSONLogger File.Stdout level,
          NewJSONLogger (File.Opened p) level]).records lvl msg fields).map Record.dest =
        (if NewJSONLogger.zapLevel level ≤ lvl then [File.Stdout, File.Opened p] else []) := by
  refine ⟨?_, fun lvl msg fields => ⟨?_, ?_⟩⟩
  · simp [SetupLogging, Config.GetLogger, NewJSONFileLogger_opened fs _ p level w hp hopen,
      RedirectStdLog]
  · rw [NewJSONLogger_records]
    split_ifs <;> rfl
  · rw [fanout_pair_dests]
    split_ifs <;> rfl

/-- Witness of C3: the path `server.log` opens in the file system where every
open succeeds. -/
theorem C3_file_without_mirror_witness :
    "server.log" ≠ "" ∧ (fun _ => none : FileSystem) "server.log" = none ∧
    SetupLogging (fun _ => none) ⟨⟨"warn", "server.log", false⟩⟩ ⟨[], [], none⟩ =
      Outcome.ret
        (NewJSONLogger (File.Opened "server.log") "warn",
         NewMultiLogger [NewJSONLogger File.Stdout "warn",
           NewJSONLogger (File.Opened "server.log") "warn"])
        { opens := [] ++ ["server.log"], out := [],
          stdLog := some (NewJSONLogger (File.Opened "server.log") "warn") } :=
  ⟨by decide, rfl,
   (C3_file_without_mirror (fun _ => none) "warn" "server.log" ⟨[], [], none⟩
     (by decide) rfl).1⟩

/-- C4: with a non-empty file path that opens and the stdout-mirror flag true,
`SetupLogging` redirects the standard log to the fan-out of console and file
logger and returns that one fan-out logger as active and as general logger;
its core is the tee of the console core and the file core, and a call on it
reaches the console and the file destination whenever the configured
threshold accepts the level. -/
theorem C4_file_with_mirror (fs : FileSystem) (level p : String) (w : World)
    (hp : p ≠ "") (hopen : fs p = none) :
    SetupLogging fs ⟨⟨level, p, true⟩⟩ w =
      Outcome.ret
        (NewMultiLogger [NewJSONLogger File.Stdout level, NewJSONLogger (File.Opened p) level],
         NewMultiLogger [NewJSONLogger File.Stdout level, NewJSONLogger (File.Opened p) level])
        { opens := w.opens ++ [p], out := w.out,
          stdLog := some (NewMultiLogger [NewJSONLogger File.Stdout level,
            NewJSONLogger (File.Opened p) level]) } ∧
    (NewMultiLogger [NewJSONLogger File.Stdout level, NewJSONLogger (File.Opened p) level]).core =
      Core.multiCore [(NewJSONLogger File.Stdout level).core,
        (NewJSONLogger (File.Opened p) level).core] ∧
    ∀ (lvl : Level) (msg : String) (fields : List Field),
      ((NewMultiLogger [NewJSONLogger File.Stdout level,
          NewJSONLogger (File.Opened p) level]).records lvl msg fields).map Record.dest =
        (if NewJSONLogger.zapLevel level ≤ lvl then [File.Stdout, File.Opened p] else []) := by
  refine ⟨?_, rfl, fun lvl msg fields => ?_⟩
  · simp [SetupLogging, Config.GetLogger, NewJSONFileLogger_opened fs _ p level w hp hopen,
      RedirectStdLog]
  · rw [fanout_pair_dests]
    split_ifs <;> rfl

/-- Witness of C4: the path `server.log` opens in the file system where every
open succeeds. -/
theorem C4_file_with_mirror_witness :
    "server.log" ≠ "" ∧ (fun _ => none : FileSystem) "server.log" = none ∧
    SetupLogging (fun _ => none) ⟨⟨"debug", "server.log", true⟩⟩ ⟨[], [], none⟩ =
      Outcome.ret
        (NewMultiLogger [NewJSONLogger File.Stdout "debug",
           NewJSONLogger (File.Opened "server.log") "debug"],
         NewMultiLogger [NewJSONLogger File.Stdout "debug",
           NewJSONLogger (File.Opened "server.log") "debug"])
        { opens := [] ++ ["server.log"], out := [],
          stdLog := some (NewMultiLogger [NewJSONLogger File.Stdout "debug",
            NewJSONLogger (File.Opened "server.log") "debug"]) } :=
  ⟨by decide, rfl,
   (C4_file_with_mirror (fun _ => none) "debug" "server.log" ⟨[], [], none⟩
     (by decide) rfl).1⟩

/-- C5: with the empty file path, whatever the file system, the level and the
stdout-mirror flag, `SetupLogging` makes no open attempt and writes nothing,
redirects the standard log to the console logger and returns the console
logger twice; a call on it reaches the console destination only. -/
theorem C5_console_only (fs : FileSystem) (level : String) (stdout : Bool) (w : World) :
    SetupLogging fs ⟨⟨level, "", stdout⟩⟩ w =
      Outcome.ret (NewJSONLogger File.Stdout level, NewJSONLogger File.Stdout level)
        { opens := w.opens, out := w.out, stdLog := some (NewJSONLogger File.Stdout level) } ∧
    ∀ (lvl : Level) (msg : String) (fields : List Field),
      ((NewJSONLogger File.Stdout level).records lvl msg fields).map Record.dest =
        (if NewJSONLogger.zapLevel level ≤ lvl then [File.Stdout] else []) := by
  refine ⟨?_, fun lvl msg fields => ?_⟩
  · simp [SetupLogging, Config.GetLogger, NewJSONFileLogger_empty, RedirectStdLog]
  · rw [NewJSONLogger_records]
    split_ifs <;> rfl

/-- C6: for a non-empty file path whose open fails with error `err`,
`NewJSONFileLogger` ends the process with status 1 after one `Fatal` call on
the fallback logger and produces no file logger; when the fallback is a
console logger built by `NewJSONLogger` that call writes exactly one record,
to the console, at fatal severity. `SetupLogging` then ends the process too:
exactly one record, at fatal severity, is appended on the console, the
standard log is not redirected and no logger is returned. -/
theorem C6_open_failure_is_fatal (fs : FileSystem) (p err : String)
    (hp : p ≠ "") (hopen : fs p = some err) :
    (∀ (c : Logger) (level : String) (w : World),
      NewJSONFileLogger fs c p level w =
        Outcome.exit 1
          { opens := w.opens ++ [p],
            out := w.out ++ c.records FatalLevel "Could not create log file" [zapError err],
            stdLog := w.stdLog }) ∧
    (∀ (o : File) (level : String),
      (NewJSONLogger o level).records FatalLevel "Could not create log file" [zapError err] =
        [{ dest := o, enc := NewJSONLogger.jsonEncoder,
           ent := { Level := FatalLevel, LoggerName := "", Message := "Could not create log file",
                    CallerDefined := false, Stack := true },
           fields := [zapError err] }]) ∧
    (∀ (level : String) (stdout : Bool) (w : World),
      SetupLogging fs ⟨⟨level, p, stdout⟩⟩ w =
        Outcome.exit 1
          { opens := w.opens ++ [p],
            out := w.out ++
              [{ dest := File.Stdout, enc := NewJSONLogger.jsonEncoder,
                 ent := { Level := FatalLevel, LoggerName := "",
                          Message := "Could not create log file",
                          CallerDefined := false, Stack := true },
                 fields := [zapError err] }],
            stdLog := w.stdLog }) := by
  have hrec : ∀ (o : File) (level : String),
      (NewJSONLogger o level).records FatalLevel "Could not create log file" [zapError err] =
        [{ dest := o, enc := NewJSONLogger.jsonEncoder,
           ent := { Level := FatalLevel, LoggerName := "", Message := "Could not create log file",
                    CallerDefined := false, Stack := true },
           fields := [zapError err] }] := by
    intro o level
    rw [NewJSONLogger_records]
    have h : NewJSONLogger.zapLevel level ≤ FatalLevel :=
      le_trans (zapLevel_le_ErrorLevel level) (by decide)
    rw [if_pos h]
    rfl
  refine ⟨fun c level w => NewJSONFileLogger_failed fs c p level err w hp hopen, hrec, ?_⟩
  intro level stdout w
  simp [SetupLogging, Config.GetLogger, NewJSONFileLogger_failed fs _ p level err w hp hopen, hrec]

/-- Witness of C6: the path `/nope/x.log` cannot be opened in the file system
where every open is refused. -/
theorem C6_open_failure_is_fatal_witness :
    "/nope/x.log" ≠ "" ∧ (fun _ => some "permission denied" : FileSystem) "/nope/x.log" =
      some "permission denied" ∧
    SetupLogging (fun _ => some "permission denied") ⟨⟨"warn", "/nope/x.log", false⟩⟩
        ⟨[], [], none⟩ =
      Outcome.exit 1
        { opens := [] ++ ["/nope/x.log"],
          out := [] ++
            [{ dest := File.Stdout, enc := NewJSONLogger.jsonEncoder,
               ent := { Level := FatalLevel, LoggerName := "",
                        Message := "Could not create log file",
                        CallerDefined := false, Stack := true },
               fields := [zapError "permission denied"] }],
          stdLog := none } :=
  ⟨by decide, rfl,
   (C6_open_failure_is_fatal (fun _ => some "permission denied") "/nope/x.log"
     "permission denied" (by decide) rfl).2.2 "warn" false ⟨[], [], none⟩⟩

/-- C7: for every file system, fallback logger, level string and state,
`NewJSONFileLogger` called with the empty path returns the absent logger and
leaves the state as it was: no open attempt, no record written, the process
goes on. -/
theorem C7_empty_path_is_absent (fs : FileSystem) (c : Logger) (level : String) (w : World) :
    NewJSONFileLogger fs c "" level w = Outcome.ret none w := rfl

/-! ## Fan-out, record layout, stack traces -/

/-- C8: for every list of loggers (the non-empty ones in particular),
`NewMultiLogger` returns a logger over the tee of the inputs' cores, one core
per input in the given order; the destinations one call at a level reaches
through it are, input after input, the destinations that input reaches by
itself at that level, and an input reaches none exactly when its own core
rejects the level. -/
theorem C8_fanout_delivery (loggers : List Logger) (lvl : Level) (msg : String)
    (fields : List Field) :
    (NewMultiLogger loggers).core = NewTee (loggers.map Logger.Core) ∧
    (loggers.map Logger.Core).length = loggers.length ∧
    ((NewMultiLogger loggers).records lvl msg fields).map Record.dest =
      loggers.flatMap (fun x => (x.records lvl msg fields).map Record.dest) ∧
    (∀ x : Logger, x.records lvl msg fields = [] ↔ x.core.Enabled lvl = false) := by
  refine ⟨by rw [NewMultiLogger_eq], by simp, ?_, fun x => records_eq_nil_iff x lvl msg fields⟩
  rw [records_dest, NewMultiLogger_eq]
  simp only [Check_NewTee, CheckAll_eq_flatMap, records_dest]
  induction loggers with
  | nil => simp
  | cons x xs ih =>
    simp only [List.map_cons, List.flatMap_cons, List.map_append, ih]
    congr 2
    exact Core.Check_congr _ _ _ rfl

/-- C9, as stated, fails: the record that the `Fatal` call of
`NewJSONFileLogger` writes through the console sink carries the field
`zap.Error(err)` and so has the key error, which is none of ts, level, msg,
caller, logger and stacktrace. -/
theorem C9_counterexample :
    ((NewJSONLogger File.Stdout "info").records FatalLevel "Could not create log file"
        [zapError "permission denied"]).map Record.keys =
      [["level", "ts", "msg", "error", "stacktrace"]] ∧
    "error" ∉ ["ts", "level", "msg", "caller", "logger", "stacktrace"] := by
  decide

/-- C9, amended: take a logger returned by `NewJSONLogger` or by
`NewMultiLogger`, also after `Named`, and a record that one call on it writes
through a sink built by `NewJSONLogger`. Leaving the key caller aside, the
JSON object of the record has exactly the keys level, ts and msg, plus logger
when the logger has a name, the keys of the top-level members that the fields
of the call add, and stacktrace when the severity is error or above. -/
theorem C9_record_keys (output : File) (s : String) (loggers : List Logger) (n : String)
    (log : Logger) (lvl : Level) (msg : String) (fields : List Field) (r : Record) (k : String)
    (hlog : log = (NewJSONLogger output s).Named n ∨ log = (NewMultiLogger loggers).Named n)
    (hr : r ∈ log.records lvl msg fields) (henc : r.enc = NewJSONLogger.jsonEncoder)
    (hk : k ≠ "caller") :
    k ∈ r.keys ↔
      k = "level" ∨ k = "ts" ∨ k = "msg" ∨ (k = "logger" ∧ log.name ≠ "") ∨
      k ∈ addFields fields ∨ (k = "stacktrace" ∧ ErrorLevel ≤ lvl) := by
  have hstack : log.addStack = ErrorLevel := by
    rcases hlog with h | h
    · rw [h, Named_addStack]; rfl
    · rw [h, Named_addStack, NewMultiLogger_eq]
  exact keys_of_record log lvl msg fields r k hstack hr henc hk

/-- Witness of C9 amended: the fan-out of console and file logger that
`SetupLogging` returns, named `api`, and the record an error call on it
writes to the file. -/
theorem C9_record_keys_witness :
    ((NewMultiLogger [NewJSONLogger File.Stdout "info",
        NewJSONLogger (File.Opened "server.log") "info"]).Named "api" =
      (NewJSONLogger File.Stdout "info").Named "api" ∨
     (NewMultiLogger [NewJSONLogger File.Stdout "info",
        NewJSONLogger (File.Opened "server.log") "info"]).Named "api" =
      (NewMultiLogger [NewJSONLogger File.Stdout "info",
        NewJSONLogger (File.Opened "server.log") "info"]).Named "api") ∧
    ({ dest := File.Opened "server.log", enc := NewJSONLogger.jsonEncoder,
       ent := { Level := ErrorLevel, LoggerName := "api", Message := "failed",
                CallerDefined := false, Stack := true },
       fields := [zapError "timeout"] } : Record) ∈
      ((NewMultiLogger [NewJSONLogger File.Stdout "info",
        NewJSONLogger (File.Opened "server.log") "info"]).Named "api").records ErrorLevel
        "failed" [zapError "timeout"] ∧
    "stacktrace" ≠ "caller" ∧
    ("stacktrace" ∈
        ({ dest := File.Opened "server.log", enc := NewJSONLogger.jsonEncoder,
           ent := { Level := ErrorLevel, LoggerName := "api", Message := "failed",
                    CallerDefined := false, Stack := true },
           fields := [zapError "timeout"] } : Record).keys ↔
      "stacktrace" = "level" ∨ "stacktrace" = "ts" ∨ "stacktrace" = "msg" ∨
      ("stacktrace" = "logger" ∧
        ((NewMultiLogger [NewJSONLogger File.Stdout "info",
          NewJSONLogger (File.Opened "server.log") "info"]).Named "api").name ≠ "") ∨
      "stacktrace" ∈ addFields [zapError "timeout"] ∨
      ("stacktrace" = "stacktrace" ∧ ErrorLevel ≤ ErrorLevel)) :=
  ⟨Or.inr rfl, by decide, by decide,
   C9_record_keys File.Stdout "info"
     [NewJSONLogger File.Stdout "info", NewJSONLogger (File.Opened "server.log") "info"] "api"
     _ ErrorLevel "failed" [zapError "timeout"] _ "stacktrace" (Or.inr rfl) (by decide) rfl
     (by decide)⟩

/-- C10: whatever the level string and whatever the inputs, the loggers of
`NewJSONLogger` and of `NewMultiLogger` capture stack traces from
`ErrorLevel`: every record they write carries a stack trace exactly when the
severity of the call is error or above (the logger of `NewJSONLogger` writes
such a record whenever its threshold accepts the level); both loggers
`SetupLogging` returns have that same stack-trace threshold. -/
theorem C10_stacktrace_from_error (output : File) (s : String) (loggers : List Logger)
    (lvl : Level) (msg : String) (fields : List Field) :
    (NewJSONLogger output s).addStack = ErrorLevel ∧
    (NewMultiLogger loggers).addStack = ErrorLevel ∧
    ((NewJSONLogger output s).records lvl msg fields).map (fun r => r.ent.Stack) =
      (if NewJSONLogger.zapLevel s ≤ lvl then [decide (ErrorLevel ≤ lvl)] else []) ∧
    (∀ r ∈ (NewJSONLogger output s).records lvl msg fields,
      r.ent.Level = lvl ∧ (r.ent.Stack = true ↔ ErrorLevel ≤ lvl)) ∧
    (∀ r ∈ (NewMultiLogger loggers).records lvl msg fields,
      r.ent.Level = lvl ∧ (r.ent.Stack = true ↔ ErrorLevel ≤ lvl)) ∧
    (∀ (fs : FileSystem) (config : Config) (w w1 : World) (a g : Logger),
      SetupLogging fs config w = Outcome.ret (a, g) w1 →
        a.addStack = ErrorLevel ∧ g.addStack = ErrorLevel) := by
  refine ⟨rfl, by rw [NewMultiLogger_eq], ?_, ?_, ?_, ?_⟩
  · rw [NewJSONLogger_records]
    split_ifs <;> rfl
  · intro r hr
    have h := records_ent _ lvl msg fields r hr
    exact ⟨h.1, by rw [h.2.2.2.1]; simp [NewJSONLogger_eq]⟩
  · intro r hr
    have h := records_ent _ lvl msg fields r hr
    exact ⟨h.1, by rw [h.2.2.2.1]; simp [NewMultiLogger_eq]⟩
  · intro fs config w w1 a g h
    unfold SetupLogging at h
    cases hf : NewJSONFileLogger fs (NewJSONLogger File.Stdout config.GetLogger.Level)
        config.GetLogger.File config.GetLogger.Level w with
    | exit code w2 => simp [hf] at h
    | ret o w2 =>
      cases o with
      | none =>
        simp only [hf, Outcome.ret.injEq, Prod.mk.injEq] at h
        obtain ⟨⟨rfl, rfl⟩, _⟩ := h
        exact ⟨rfl, rfl⟩
      | some f =>
        have hfl := NewJSONFileLogger_some _ _ _ _ _ _ _ hf
        subst hfl
        simp only [hf] at h
        split_ifs at h
        · simp only [Outcome.ret.injEq, Prod.mk.injEq] at h
          obtain ⟨⟨rfl, rfl⟩, _⟩ := h
          exact ⟨rfl, rfl⟩
        · simp only [Outcome.ret.injEq, Prod.mk.injEq] at h
          obtain ⟨⟨rfl, rfl⟩, _⟩ := h
          exact ⟨rfl, rfl⟩

end Nakama
